import Mathlib

/-!
# Verification of the heat-ui p2p messaging core

Shallow embedding of the signaling / negotiation / identity-verification
protocol implemented in `p2p.P2PConnector` (src/unnamed/part_000) and
`P2PMessaging` (src/app/src/services/p2pmessaging/P2PMessaging.ts).

External collaborators (WebRTC primitives, the `heat.crypto` library, the
signaling relay, the missing `p2p.Room` class body) are modelled as
parameters or as emitted effects; the connector's own control flow is
translated branch by branch from the source.
-/

namespace P2P

/-- `type OnlineStatus = "online" | "offline"` (P2PMessaging.ts, line 24). -/
inductive OnlineStatus
  | online
  | offline
deriving DecidableEq, Repr

/-- `type EnterRoomState = "not" | "entering" | "entered"` (P2PMessaging.ts, line 25). -/
inductive EnterState
  | notEntered
  | entering
  | entered
deriving DecidableEq, Repr

/-!
## One-to-one room names (P2PMessaging.generateOneToOneRoomName)

```
let arr = [heat.crypto.getAccountIdFromPublicKey(peerOnePublicKey),
           heat.crypto.getAccountIdFromPublicKey(peerTwoPublicKey)];
arr.sort();
return arr[0] + "-" + arr[1];
```

`heat.crypto.getAccountIdFromPublicKey` is an external library function; it
is passed as the parameter `getAccountId`.  JavaScript `arr.sort()` on a
two-element string array yields `[y, x]` when `y < x` in the string order
and `[x, y]` otherwise.
-/

/-- JavaScript `[x, y].sort()` specialised to two strings. -/
def sortPair (x y : String) : String × String :=
  if y < x then (y, x) else (x, y)

/-- `P2PMessaging.generateOneToOneRoomName` with the external account-id
derivation abstracted as `getAccountId`. -/
def generateOneToOneRoomName (getAccountId : String → String)
    (peerOnePublicKey peerTwoPublicKey : String) : String :=
  let p := sortPair (getAccountId peerOnePublicKey) (getAccountId peerTwoPublicKey)
  p.1 ++ "-" ++ p.2

/-!
## Room state and the data-channel message handler (P2PConnector.onMessage)

The `p2p.Room` class body is not part of the verified sources; the fields
the connector reads and writes (`state`, `memberPublicKeys`,
`room["proofData"]`) are carried in `RoomState`.  Calls back into the room
(`onMessageInternal`, `onRejected`) and into the WebRTC channel
(`send`, `close`) are emitted as effects.
-/

/-- The room fields touched by the connector: `state.approved`,
`state.entered`, `memberPublicKeys`, and the ad-hoc
`room["proofData"]` map (peer id to challenge hex) used during the
peer-level identity handshake. -/
structure RoomState where
  approved : Bool
  entered : EnterState
  memberPublicKeys : List String
  proofData : List (String × String)
deriving DecidableEq, Repr

/-- Association-list lookup (JavaScript `map[key]`, `undefined` as `none`). -/
def alist.lookup {α : Type} : List (String × α) → String → Option α
  | [], _ => none
  | (k, v) :: rest, n => if k = n then some v else alist.lookup rest n

/-- Association-list update (JavaScript `map[key] = v` / `Map.set`). -/
def alist.set {α : Type} : List (String × α) → String → α → List (String × α)
  | [], n, r => [(n, r)]
  | (k, v) :: rest, n, r => if k = n then (n, r) :: rest else (k, v) :: alist.set rest n r

/-- Association-list deletion (JavaScript `delete map[key]`). -/
def alist.del {α : Type} : List (String × α) → String → List (String × α)
  | [], _ => []
  | (k, v) :: rest, n => if k = n then rest else (k, v) :: alist.del rest n

/-- `ProvingData` as produced by the `sign` delegate:
`{signatureHex, dataHex, publicKeyHex}`. -/
structure ProvingData where
  signatureHex : String
  dataHex : String
  publicKeyHex : String
deriving DecidableEq, Repr

/-- A peer-level `PROOF_IDENTITY` response as read by `onMessage`:
fields `rejected`, `signature`, `data`, `publicKey`. -/
structure ProofMsg where
  rejected : Option String
  signature : String
  data : String
  publicKey : String
deriving DecidableEq, Repr

/-- Messages the handler can send back over the data channel. -/
inductive PeerOutMsg
  /-- `{type: PROOF_IDENTITY, signature, data, publicKey}` -/
  | proofResponse (signature data publicKey : String)
  /-- `{type: PROOF_IDENTITY, rejected: reason}` -/
  | responseRejected (reason : String)
  /-- `{type: GET_PROOF_IDENTITY, rejected: reason}` — the invalid-signature
  branch replies with the request type (source line 581). -/
  | requestRejected (reason : String)
deriving DecidableEq, Repr

/-- Observable actions of `onMessage` on its collaborators. -/
inductive ChanEffect
  /-- `room.onMessageInternal(msg)` -/
  | deliverToRoom
  /-- `this.sendSignalingMessage([{room}, msg])` (CHECK_CHANNEL echo) -/
  | forwardToSignaling
  /-- `this.send(roomName, ..., dataChannel)` -/
  | sendToPeer (m : PeerOutMsg)
  /-- `dataChannel.close()` -/
  | closeChannel
  /-- `room.onRejected(peerId, msg.rejected)` -/
  | notifyRejected (peerId reason : String)
deriving DecidableEq, Repr

/-- The inbound data-channel messages `onMessage` dispatches on. -/
inductive ChanInMsg
  | checkChannel (value : String)
  | requestProofIdentity (data : String)
  | responseProofIdentity (p : ProofMsg)
  | otherChanMsg
deriving DecidableEq, Repr

/-- Result of `onMessage`: the updated room, the emitted effects, and
whether a peer-level identity proof was accepted on this message
(the success branch: nothing rejected, signature verified, proven key
allowed). -/
structure ChanResult where
  room : RoomState
  effects : List ChanEffect
  proofAccepted : Bool
deriving Repr

/-- `P2PConnector.onMessage` (source lines 529-589), with the external
`heat.crypto.verifyBytes` as `verify`, the signing delegate as `sign`, and
the room's `provenPublicKeyAllowed` callback as `provenAllowed`.  The
room is the one registered under the channel's room name. -/
def onChannelMessage (sign : String → ProvingData)
    (verify : String → String → String → Bool)
    (provenAllowed : RoomState → String → String → Bool)
    (room : RoomState) (peerId : String) (msg : ChanInMsg) : ChanResult :=
  match msg with
  | .checkChannel _ =>
      { room := room, effects := [.deliverToRoom, .forwardToSignaling], proofAccepted := false }
  | .requestProofIdentity data =>
      let signedData := sign data
      { room := room
        effects := [.deliverToRoom,
          .sendToPeer (.proofResponse signedData.signatureHex signedData.dataHex signedData.publicKeyHex)]
        proofAccepted := false }
  | .responseProofIdentity p =>
      match p.rejected with
      | some reason =>
          { room := room
            effects := [.deliverToRoom, .notifyRejected peerId reason, .closeChannel]
            proofAccepted := false }
      | none =>
          let rejectedReason : Option String :=
            if alist.lookup room.proofData peerId ≠ some p.data then
              some "Received data does not match the sent data"
            else if p.publicKey ≠ peerId then
              some "Received public key does not match the peer's public key"
            else if ¬ p.publicKey ∈ room.memberPublicKeys then
              some "Received public key is not allowed"
            else none
          match rejectedReason with
          | some reason =>
              { room := room
                effects := [.deliverToRoom, .sendToPeer (.responseRejected reason), .closeChannel]
                proofAccepted := false }
          | none =>
              if verify p.signature p.data p.publicKey then
                let room1 := { room with proofData := alist.del room.proofData peerId }
                if ¬ provenAllowed room1 peerId p.publicKey then
                  { room := room1
                    effects := [.deliverToRoom,
                      .sendToPeer (.responseRejected "Public key owner is not allowed to connect"),
                      .closeChannel]
                    proofAccepted := false }
                else
                  { room := room1, effects := [.deliverToRoom], proofAccepted := true }
              else
                { room := room
                  effects := [.deliverToRoom, .sendToPeer (.requestRejected "Invalid signature"), .closeChannel]
                  proofAccepted := false }
  | .otherChanMsg =>
      { room := room, effects := [.deliverToRoom], proofAccepted := false }

/-!
## Connector state and the signaling message handlers

State fields of `P2PConnector` that the verified handlers read or write.
Queued closures are defunctionalised: a `pendingRooms` entry is the name of
the room whose `requestEnterRoom` closure was pushed (the closure captures
the room object, which `enter` has already registered in the map under that
name), and `pendingOnlineStatus` is the status captured by the queued
`sendOnlineStatus` closure.
-/

/-- Messages of interest in the else-branch dispatch
(`ONLINE_STATUS`, `WHO_ONLINE`, ...), with JavaScript's absent fields as
defaults. -/
structure OtherMsg where
  type : String := ""
  peerId : String := ""
  status : String := ""
  remotePeerIds : List String := []
deriving DecidableEq, Repr

/-- One entry of `signalingMessageAwaitings`: the closure `f` built by
`request`.  `id` models the identity of the closure object (each call to
`request` creates a fresh one); `accepts` is `handleResponse`, with the
`notAcceptedResponse` sentinel as `none`. -/
structure Matcher where
  id : Nat
  accepts : OtherMsg → Option String

/-- Outbound signaling messages sent by the modelled handlers. -/
inductive SigMsg
  | room (name : String)
  | wantProveIdentity
  | setStatus (s : OnlineStatus)
  | proofIdentity (p : ProvingData)
  | ping
deriving DecidableEq, Repr

/-- Observable actions of the connector on its collaborators. -/
inductive Effect
  /-- `sendSignalingMessage([...])` -/
  | send (m : SigMsg)
  /-- the `setTimeout(..., 4000)` armed by `requestEnterRoom` -/
  | armEntryTimer (room : String) (ms : Nat)
  /-- `WELCOME` roster handling: `createPeer` and, when the (externally
  tracked) peer is not yet connected, `askPeerConnection` + `doOffer` -/
  | negotiateWithPeer (room peerId : String)
  /-- `setRemoteDescription` on the peer's connection -/
  | setRemoteDescription (room peerId : String)
  /-- `doAnswer` after the remote offer description is applied -/
  | answerPeer (room peerId : String)
  /-- `addIceCandidate` on the peer's connection (the 2.5 s reconnect
  heuristic attached here is modelled by `peerStep`) -/
  | addIceCandidate (room peerId : String)
  /-- `confirmIncomingCall(caller)` (room creation and forced enter run in
  its continuation) -/
  | confirmCall (caller room : String)
  /-- `signalingError(reason)` -/
  | errorCallback (reason : String)
  /-- resolution of the pending request whose matcher has the given id -/
  | resolveRequest (id : Nat) (v : String)
deriving Repr

/-- The `P2PConnector` fields driven by the verified handlers. -/
structure ConnState where
  onlineStatus : OnlineStatus
  identity : Option String
  pendingIdentity : Option String
  pendingRooms : List String
  pendingOnlineStatus : Option OnlineStatus
  rooms : List (String × RoomState)
  awaitings : List Matcher

/-- The 4-second room-entry timeout armed by `requestEnterRoom`. -/
def enterTimeoutMs : Nat := 4000

/-- The `requestEnterRoom` closure of `P2PConnector.enter` (source lines
135-150), acting on the room registered under `name`: set
`state.approved`, and when the room is not entered, move it to
`"entering"`, arm the 4-second revert timer, and send the `ROOM` join
request. -/
def requestEnterRoom (st : ConnState) (name : String) : ConnState × List Effect :=
  match alist.lookup st.rooms name with
  | none => (st, [])
  | some r =>
      let r1 : RoomState := { r with approved := true }
      if r1.entered = .notEntered then
        let r2 : RoomState := { r1 with entered := .entering }
        ({ st with rooms := alist.set st.rooms name r2 },
          [.armEntryTimer name enterTimeoutMs, .send (.room name)])
      else
        ({ st with rooms := alist.set st.rooms name r1 }, [])

/-- The shared tail of `P2PConnector.enter`: register the room object
under its name, then either run `requestEnterRoom` (identity already
approved) or queue it and ask the relay for an identity challenge. -/
def enterBody (st : ConnState) (name : String) (room : RoomState) : ConnState × List Effect :=
  let st1 := { st with rooms := alist.set st.rooms name room }
  match st1.identity with
  | some _ => requestEnterRoom st1 name
  | none =>
      ({ st1 with pendingRooms := st1.pendingRooms ++ [name] },
        [.send .wantProveIdentity])

/-- `P2PConnector.enter(room, enforce?)` (source lines 126-161).  The room
argument is the object registered under `name` whenever one is registered
(true at every call site), so the registered state is authoritative;
`roomArg` is only consulted when the name is not yet registered. -/
def enter (st : ConnState) (name : String) (roomArg : RoomState) (enforce : Bool) :
    ConnState × List Effect :=
  match alist.lookup st.rooms name with
  | some r =>
      if r.entered = .entered then
        if enforce then enterBody st name { r with entered := .notEntered }
        else (st, [])
      else enterBody st name r
  | none => enterBody st name roomArg

/-- The `setTimeout` callback armed by `requestEnterRoom`: 4 seconds after
the join request, a room still not `"entered"` reverts to `"not"`. -/
def entryTimeout (st : ConnState) (name : String) : ConnState :=
  match alist.lookup st.rooms name with
  | none => st
  | some r =>
      if r.entered ≠ .entered then
        { st with rooms := alist.set st.rooms name { r with entered := .notEntered } }
      else st

/-- `P2PConnector.setOnlineStatus` (source lines 81-96). -/
def setOnlineStatus (st : ConnState) (status : OnlineStatus) : ConnState × List Effect :=
  let p :=
    if st.identity.isSome then (st, [Effect.send (.setStatus status)])
    else ({ st with pendingOnlineStatus := some status }, [Effect.send .wantProveIdentity])
  let st2 := { p.1 with onlineStatus := status }
  if status = .offline then ({ st2 with identity := none }, p.2) else (st2, p.2)

/-- `APPROVED_IDENTITY` flush: run the queued `requestEnterRoom` closures
in queue order, threading the state and concatenating their effects. -/
def flushRooms : ConnState → List String → ConnState × List Effect
  | st, [] => (st, [])
  | st, n :: rest =>
      let p1 := requestEnterRoom st n
      let p2 := flushRooms p1.1 rest
      (p2.1, p1.2 ++ p2.2)

/-- JavaScript `splice(indexOf(f), 1)` on the matcher list: remove the
first matcher with the given closure identity (no-op when absent,
matching the `i !== -1` guard). -/
def eraseFirstById : List Matcher → Nat → List Matcher
  | [], _ => []
  | f :: rest, i => if f.id = i then rest else f :: eraseFirstById rest i

/-- `signalingMessageAwaitings.forEach(f => f(msg))` under ECMAScript
`forEach` semantics: the length is captured once, indices `0..len-1` of
the *current* array are visited (absent indices skipped), and each visited
matcher that accepts resolves its promise and splices itself out. -/
def dispatchAux (m : OtherMsg) : Nat → Nat → List Matcher → List Matcher × List (Nat × String)
  | 0, _, l => (l, [])
  | fuel + 1, k, l =>
      match l[k]? with
      | none => dispatchAux m fuel (k + 1) l
      | some f =>
          match f.accepts m with
          | some v =>
              let l1 := eraseFirstById l f.id
              let p := dispatchAux m fuel (k + 1) l1
              (p.1, (f.id, v) :: p.2)
          | none => dispatchAux m fuel (k + 1) l

/-- The full matcher dispatch of the else branch of `onSignalingMessage`:
returns the surviving matcher list and the `(id, value)` resolutions in
the order they fired. -/
def dispatch (m : OtherMsg) (l : List Matcher) : List Matcher × List (Nat × String) :=
  dispatchAux m l.length 0 l

/-- Inbound signaling messages, keyed by the `msg.type` discriminator of
`onSignalingMessage`; messages matching no protocol handler are
`otherIn`. -/
inductive InMsg
  | pong
  | proveIdentity (data : String)
  | approvedIdentity
  | callIn (room caller : String)
  | errorIn (reason : String)
  | welcome (room : String) (remotePeerIds : List String)
  | offerIn (room fromPeer : String)
  | answerIn (room fromPeer : String)
  | candidateIn (room fromPeer : String)
  | wrongRoom
  | otherIn (payload : OtherMsg)
deriving Repr

/-- `P2PConnector.onSignalingMessage` (source lines 208-319), with the
signing delegate as `sign`.  Negotiation steps on the WebRTC collaborator
are emitted as effects; per-peer connection bookkeeping (including the
2.5 s candidate reconnect heuristic) is modelled by `peerStep`. -/
def onSignalingMessage (sign : String → ProvingData) (st : ConnState) (msg : InMsg) :
    ConnState × List Effect :=
  if st.onlineStatus = .offline then (st, [])
  else
    match msg with
    | .pong => (st, [])
    | .proveIdentity data => (st, [.send (.proofIdentity (sign data))])
    | .approvedIdentity =>
        let st1 := { st with identity := st.pendingIdentity }
        let p := flushRooms st1 st1.pendingRooms
        let st2 := { p.1 with pendingRooms := [] }
        match st2.pendingOnlineStatus with
        | some s => ({ st2 with pendingOnlineStatus := none }, p.2 ++ [.send (.setStatus s)])
        | none => (st2, p.2)
    | .callIn room caller => (st, [.confirmCall caller room])
    | .errorIn reason => (st, [.errorCallback reason])
    | .welcome room remotePeerIds =>
        match alist.lookup st.rooms room with
        | none => (st, [])
        | some r =>
            ({ st with rooms := alist.set st.rooms room { r with entered := .entered } },
              remotePeerIds.map (fun peerId => .negotiateWithPeer room peerId))
    | .offerIn room fromPeer =>
        (st, [.setRemoteDescription room fromPeer, .answerPeer room fromPeer])
    | .answerIn room fromPeer => (st, [.setRemoteDescription room fromPeer])
    | .candidateIn room fromPeer => (st, [.addIceCandidate room fromPeer])
    | .wrongRoom => (st, [])
    | .otherIn payload =>
        let p := dispatch payload st.awaitings
        ({ st with awaitings := p.1 }, p.2.map (fun r => .resolveRequest r.1 r.2))

/-- The fixed `promiseTimeout` bound used by `P2PConnector.request`. -/
def requestTimeoutMs : Nat := 3000

/-- `P2PConnector.request` (source lines 616-631): push the matcher onto
`signalingMessageAwaitings`, invoke the send thunk, and wrap the promise
in `promiseTimeout(3000, p)`; the returned `Nat` is that timeout. -/
def request (st : ConnState) (m : Matcher) (out : SigMsg) : ConnState × List Effect × Nat :=
  ({ st with awaitings := st.awaitings ++ [m] }, [.send out], requestTimeoutMs)

/-- Outcome of the promise returned by `request`. -/
inductive ReqOutcome
  | resolved (v : String)
  | rejectedTimeout
deriving DecidableEq, Repr

/-- The `promiseTimeout` timer callback (source lines 638-640), reached
when the matcher has not accepted any message within the timeout: it
rejects the promise and touches no connector state — in particular the
matcher stays in `signalingMessageAwaitings`. -/
def requestTimeoutFire (st : ConnState) : ConnState × ReqOutcome :=
  (st, .rejectedTimeout)

/-- The closure identities of a matcher list. -/
def matcherIds (l : List Matcher) : List Nat := l.map Matcher.id

/-- Feeding a sequence of non-protocol signaling messages through
`onSignalingMessage` (each one hits the matcher dispatch of the else
branch). -/
def runDispatches (sign : String → ProvingData) (st : ConnState) (msgs : List OtherMsg) :
    ConnState :=
  msgs.foldl (fun s x => (onSignalingMessage sign s (.otherIn x)).1) st

def wMatcher1 : Matcher := ⟨5, fun _ => none⟩

def wMatcher2 : Matcher := ⟨7, fun _ => some "ok"⟩

def wMatchers : List Matcher := [wMatcher1, wMatcher2]

/-- The matcher list of the C6 counterexample: three distinct pending
matchers, the first and the third of which accept every message. -/
def cexMatchers : List Matcher :=
  [⟨0, fun _ => some "a"⟩, ⟨1, fun _ => some "b"⟩, ⟨2, fun _ => some "c"⟩]

/-!
## Per-peer reconnect heuristic (candidate handler, lines 299-308)

The candidate branch of `onSignalingMessage` arms, for each candidate
message and unless the one-shot `noNeedReconnect` flag is set, a 2.5 s
timer whose callback re-initiates the connection as offerer
(`doOffer`, which sets `connectionRole = 'offer'`) when the peer is
still not connected and its role is `'answer'`, marking
`noNeedReconnect`.  The per-peer fields live on the peer object; the
events a peer can see (from the candidate handler, the `WELCOME`/offer
handlers via `doOffer`/`doAnswer`, and channel state changes) are
replayed as a trace.
-/

/-- `peer['connectionRole']`: `'offer'`, `'answer'` or `'no need'`
(absent as `none` in `Option`). -/
inductive ConnectionRole
  | offerRole
  | answerRole
  | noNeedRole
deriving DecidableEq, Repr

/-- The per-peer fields the reconnect heuristic reads and writes, plus
instrumentation: `pendingTimers` counts armed-but-unfired 2.5 s timers,
and `reofferCount` counts executions of the timer callback's re-offer
branch. -/
structure PeerRec where
  connected : Bool
  connectionRole : Option ConnectionRole
  noNeedReconnect : Bool
  pendingTimers : Nat
  reofferCount : Nat
deriving DecidableEq, Repr

/-- A fresh peer: not connected, no role, heuristic not yet used. -/
def initPeer : PeerRec :=
  { connected := false, connectionRole := none, noNeedReconnect := false,
    pendingTimers := 0, reofferCount := 0 }

/-- Events that touch the peer's heuristic state. -/
inductive PeerEvent
  /-- a `candidate` message for this peer was applied (lines 299-308) -/
  | candidateArrived
  /-- one armed 2.5 s timer fires (the `setTimeout` callback) -/
  | reconnectTimerFires
  /-- `doOffer` ran for this peer (e.g. from the `WELCOME` roster) -/
  | offerInitiated
  /-- `doAnswer` ran for this peer (reacting to an inbound offer) -/
  | answerInitiated
  /-- the peer became connected (channel up and verified) -/
  | channelConnected
  /-- the peer lost its channel -/
  | channelClosed
deriving DecidableEq, Repr

/-- One step of the per-peer heuristic state:
  * `candidateArrived`: `if (!peer['noNeedReconnect']) setTimeout(..., 2500)`;
  * `reconnectTimerFires`: the callback — `if (!peer.isConnected() &&
    peer['connectionRole'] == 'answer') { peer['noNeedReconnect'] = true;
    ... doOffer(...) }`, `doOffer` setting `connectionRole = 'offer'`;
  * `offerInitiated`: `peer['connectionRole'] = 'offer'` (doOffer);
  * `answerInitiated`: `peer['connectionRole'] = peer['connectionRole'] ?
    'no need' : 'answer'` (doAnswer);
  * channel events toggle `connected`. -/
def peerStep (p : PeerRec) : PeerEvent → PeerRec
  | .candidateArrived =>
      if p.noNeedReconnect then p
      else { p with pendingTimers := p.pendingTimers + 1 }
  | .reconnectTimerFires =>
      if p.pendingTimers = 0 then p
      else
        let p1 := { p with pendingTimers := p.pendingTimers - 1 }
        if p1.connected = false ∧ p1.connectionRole = some .answerRole then
          { p1 with noNeedReconnect := true, connectionRole := some .offerRole,
                    reofferCount := p1.reofferCount + 1 }
        else p1
  | .offerInitiated => { p with connectionRole := some .offerRole }
  | .answerInitiated =>
      let newRole : ConnectionRole :=
        if p.connectionRole.isSome then .noNeedRole else .answerRole
      { p with connectionRole := some newRole }
  | .channelConnected => { p with connected := true }
  | .channelClosed => { p with connected := false }

/-- Replay a trace of events against a fresh peer. -/
def runPeer (evs : List PeerEvent) : PeerRec := evs.foldl peerStep initPeer

/-- The invariant behind "at most once": once the heuristic has fired,
the connection role is `'offer'` or `'no need'` forever, so the firing
condition (`role == 'answer'`) can never hold again. -/
def peerInv (p : PeerRec) : Prop :=
  p.reofferCount ≤ 1
  ∧ (p.reofferCount = 1 →
      p.connectionRole = some .offerRole ∨ p.connectionRole = some .noNeedRole)

/-!
## Messenger layer (P2PMessaging.enterRoom)
-/

/-- The `P2PMessaging` fields `enterRoom` reads: the unlocked user's
public key and the owned connector. -/
structure MsgrState where
  userPublicKey : String
  conn : ConnState

/-- Modelled from the spec: the `p2p.Room` constructor is not among the
verified sources.  Per the spec's data model, a freshly created
one-to-one room starts in entry state `Idle` (`"not"`), unapproved, with
the single peer as its membership allow-list and no pending proof
challenges. -/
def newRoom (peerId : String) : RoomState :=
  { approved := false, entered := .notEntered,
    memberPublicKeys := [peerId], proofData := [] }

/-- `P2PMessaging.enterRoom(peerId)` (P2PMessaging.ts lines 147-161):
offline short-circuit, canonical room name, get-or-create the room in
the connector registry, and `room.enter()` (which per the spec delegates
to the connector's `enter`) when the room is not yet entered.  Returns
the room name for the returned `Room` reference, `none` for `null`. -/
def enterRoom (getAccountId : String → String) (st : MsgrState) (peerId : String) :
    Option String × MsgrState × List Effect :=
  if st.conn.onlineStatus = .offline then (none, st, [])
  else
    let roomName := generateOneToOneRoomName getAccountId st.userPublicKey peerId
    let pr : RoomState × ConnState :=
      match alist.lookup st.conn.rooms roomName with
      | some r => (r, st.conn)
      | none =>
          let r := newRoom peerId
          (r, { st.conn with rooms := alist.set st.conn.rooms roomName r })
    if pr.1.entered = .notEntered then
      let p := enter pr.2 roomName pr.1 false
      (some roomName, { st with conn := p.1 }, p.2)
    else (some roomName, { st with conn := pr.2 }, [])

theorem sortPair_comm (x y : String) : sortPair x y = sortPair y x := by
  unfold sortPair
  rcases lt_trichotomy x y with h | h | h
  · simp [h, not_lt_of_gt h]
  · simp [h]
  · simp [h, not_lt_of_gt h]

/-- C3: the derived one-to-one room identifier is symmetric in the two
identity public keys: `generateOneToOneRoomName(A, B) =
generateOneToOneRoomName(B, A)` for every account-id derivation. -/
theorem generateOneToOneRoomName_symm (getAccountId : String → String)
    (a b : String) :
    generateOneToOneRoomName getAccountId a b
      = generateOneToOneRoomName getAccountId b a := by
  unfold generateOneToOneRoomName
  rw [sortPair_comm]

/-- C1: a peer-level identity proof response whose claimed public key is
not the expected peer id for the connection is answered with a rejection
message over the channel, the channel is closed, and the proof is not
accepted — even when the signature verifies. -/
theorem proof_wrong_publicKey_rejected (sign : String → ProvingData)
    (verify : String → String → String → Bool)
    (provenAllowed : RoomState → String → String → Bool)
    (room : RoomState) (peerId : String) (p : ProofMsg)
    (hrej : p.rejected = none)
    (_hsig : verify p.signature p.data p.publicKey = true)
    (hpk : p.publicKey ≠ peerId) :
    ∃ reason,
      (onChannelMessage sign verify provenAllowed room peerId
          (.responseProofIdentity p)).effects
        = [.deliverToRoom, .sendToPeer (.responseRejected reason), .closeChannel]
      ∧ (onChannelMessage sign verify provenAllowed room peerId
          (.responseProofIdentity p)).proofAccepted = false := by
  by_cases hdata : alist.lookup room.proofData peerId = some p.data
  · exact ⟨"Received public key does not match the peer's public key",
      by simp [onChannelMessage, hrej, hdata, hpk]⟩
  · exact ⟨"Received data does not match the sent data",
      by simp [onChannelMessage, hrej, hdata]⟩

theorem proof_wrong_publicKey_rejected_witness :
    ((ProofMsg.mk none "s" "abc" "other").rejected = none
      ∧ (fun _ _ _ => true) "s" "abc" "other" = true
      ∧ "other" ≠ "peer")
    ∧ ∃ reason,
      (onChannelMessage (fun d => ⟨"s", d, "pk"⟩) (fun _ _ _ => true) (fun _ _ _ => true)
          ⟨false, .notEntered, ["peer"], [("peer", "abc")]⟩ "peer"
          (.responseProofIdentity (ProofMsg.mk none "s" "abc" "other"))).effects
        = [.deliverToRoom, .sendToPeer (.responseRejected reason), .closeChannel]
      ∧ (onChannelMessage (fun d => ⟨"s", d, "pk"⟩) (fun _ _ _ => true) (fun _ _ _ => true)
          ⟨false, .notEntered, ["peer"], [("peer", "abc")]⟩ "peer"
          (.responseProofIdentity (ProofMsg.mk none "s" "abc" "other"))).proofAccepted = false :=
  ⟨⟨rfl, rfl, by decide⟩,
    proof_wrong_publicKey_rejected (fun d => ⟨"s", d, "pk"⟩) (fun _ _ _ => true)
      (fun _ _ _ => true) ⟨false, .notEntered, ["peer"], [("peer", "abc")]⟩ "peer"
      (ProofMsg.mk none "s" "abc" "other") rfl rfl (by decide)⟩

/-- C2: a peer-level identity proof response whose echoed challenge does
not equal the challenge recorded under `room["proofData"][peerId]` is
answered with a rejection message over the channel, the channel is
closed, and the proof is not accepted. -/
theorem proof_wrong_challenge_rejected (sign : String → ProvingData)
    (verify : String → String → String → Bool)
    (provenAllowed : RoomState → String → String → Bool)
    (room : RoomState) (peerId : String) (p : ProofMsg)
    (hrej : p.rejected = none)
    (hdata : alist.lookup room.proofData peerId ≠ some p.data) :
    (onChannelMessage sign verify provenAllowed room peerId
        (.responseProofIdentity p)).effects
      = [.deliverToRoom,
          .sendToPeer (.responseRejected "Received data does not match the sent data"),
          .closeChannel]
    ∧ (onChannelMessage sign verify provenAllowed room peerId
        (.responseProofIdentity p)).proofAccepted = false := by
  simp [onChannelMessage, hrej, hdata]

theorem proof_wrong_challenge_rejected_witness :
    ((ProofMsg.mk none "s" "xyz" "peer").rejected = none
      ∧ alist.lookup [("peer", "abc")] "peer" ≠ some (ProofMsg.mk none "s" "xyz" "peer").data)
    ∧ (onChannelMessage (fun d => ⟨"s", d, "pk"⟩) (fun _ _ _ => true) (fun _ _ _ => true)
        ⟨false, .notEntered, ["peer"], [("peer", "abc")]⟩ "peer"
        (.responseProofIdentity (ProofMsg.mk none "s" "xyz" "peer"))).effects
      = [.deliverToRoom,
          .sendToPeer (.responseRejected "Received data does not match the sent data"),
          .closeChannel]
    ∧ (onChannelMessage (fun d => ⟨"s", d, "pk"⟩) (fun _ _ _ => true) (fun _ _ _ => true)
        ⟨false, .notEntered, ["peer"], [("peer", "abc")]⟩ "peer"
        (.responseProofIdentity (ProofMsg.mk none "s" "xyz" "peer"))).proofAccepted = false :=
  ⟨⟨rfl, by decide⟩,
    (proof_wrong_challenge_rejected (fun d => ⟨"s", d, "pk"⟩) (fun _ _ _ => true)
      (fun _ _ _ => true) ⟨false, .notEntered, ["peer"], [("peer", "abc")]⟩ "peer"
      (ProofMsg.mk none "s" "xyz" "peer") rfl (by decide)).1,
    (proof_wrong_challenge_rejected (fun d => ⟨"s", d, "pk"⟩) (fun _ _ _ => true)
      (fun _ _ _ => true) ⟨false, .notEntered, ["peer"], [("peer", "abc")]⟩ "peer"
      (ProofMsg.mk none "s" "xyz" "peer") rfl (by decide)).2⟩

@[simp] theorem matcherIds_nil : matcherIds [] = [] := rfl

@[simp] theorem matcherIds_cons (f : Matcher) (l : List Matcher) :
    matcherIds (f :: l) = f.id :: matcherIds l := rfl

@[simp] theorem matcherIds_append (l1 l2 : List Matcher) :
    matcherIds (l1 ++ l2) = matcherIds l1 ++ matcherIds l2 := by
  simp [matcherIds]

theorem eraseFirstById_sublist (l : List Matcher) (i : Nat) :
    (eraseFirstById l i).Sublist l := by
  induction l with
  | nil => simp [eraseFirstById]
  | cons f rest ih =>
      by_cases h : f.id = i
      · simp only [eraseFirstById, if_pos h]
        exact List.sublist_cons_self f rest
      · simp only [eraseFirstById, if_neg h]
        exact ih.cons₂ f

theorem dispatchAux_sublist (m : OtherMsg) :
    ∀ (fuel k : Nat) (l : List Matcher), (dispatchAux m fuel k l).1.Sublist l := by
  intro fuel
  induction fuel with
  | zero => intro k l; simp [dispatchAux]
  | succ fuel ih =>
      intro k l
      simp only [dispatchAux]
      split
      · exact ih (k + 1) l
      · next f heq =>
          split
          · next v hacc =>
              exact (ih (k + 1) (eraseFirstById l f.id)).trans
                (eraseFirstById_sublist l f.id)
          · exact ih (k + 1) l

theorem mem_ids_eraseFirstById {i j : Nat} (hne : j ≠ i) (l : List Matcher)
    (h : i ∈ matcherIds l) : i ∈ matcherIds (eraseFirstById l j) := by
  induction l with
  | nil => simp at h
  | cons f rest ih =>
      rcases List.mem_cons.mp (by simpa using h) with h1 | h1
      · have hf : ¬ f.id = j := fun hh => hne (h1.trans hh).symm
        simp only [eraseFirstById, if_neg hf, matcherIds_cons]
        exact List.mem_cons.mpr (Or.inl h1)
      · by_cases hf : f.id = j
        · simp only [eraseFirstById, if_pos hf]
          exact h1
        · simp only [eraseFirstById, if_neg hf, matcherIds_cons]
          exact List.mem_cons.mpr (Or.inr (ih h1))

theorem nodup_not_mem_eraseFirstById (l : List Matcher) (i : Nat)
    (hnodup : (matcherIds l).Nodup) : i ∉ matcherIds (eraseFirstById l i) := by
  induction l with
  | nil => simp [eraseFirstById]
  | cons f rest ih =>
      have hnd := List.nodup_cons.mp (by simpa using hnodup)
      by_cases hf : f.id = i
      · simp only [eraseFirstById, if_pos hf]
        exact fun hmem => hnd.1 (by rw [hf]; exact hmem)
      · simp only [eraseFirstById, if_neg hf, matcherIds_cons]
        intro hmem
        rcases List.mem_cons.mp hmem with h1 | h1
        · exact hf h1.symm
        · exact ih hnd.2 h1

theorem never_acceptor_stays (m : OtherMsg) (i : Nat) :
    ∀ (fuel k : Nat) (l : List Matcher),
    (∀ f ∈ l, f.id = i → f.accepts m = none) →
    i ∈ matcherIds l → i ∈ matcherIds (dispatchAux m fuel k l).1 := by
  intro fuel
  induction fuel with
  | zero => intro k l _ h; simpa [dispatchAux] using h
  | succ fuel ih =>
      intro k l hnever h
      simp only [dispatchAux]
      split
      · exact ih (k + 1) l hnever h
      · next f heq =>
          split
          · next v hacc =>
              have hfid : ¬ f.id = i := by
                intro hh
                have := hnever f (List.getElem?_mem heq) hh
                rw [this] at hacc
                cases hacc
              have hnever2 : ∀ g ∈ eraseFirstById l f.id, g.id = i → g.accepts m = none :=
                fun g hg hgid => hnever g ((eraseFirstById_sublist l f.id).mem hg) hgid
              show i ∈ matcherIds (dispatchAux m fuel (k + 1) (eraseFirstById l f.id)).1
              exact ih (k + 1) (eraseFirstById l f.id) hnever2
                (mem_ids_eraseFirstById hfid l h)
          · exact ih (k + 1) l hnever h

theorem alist.set_set {α : Type} (l : List (String × α)) (n : String) (a b : α) :
    alist.set (alist.set l n a) n b = alist.set l n b := by
  induction l with
  | nil => simp [alist.set]
  | cons kv rest ih =>
      obtain ⟨k, v⟩ := kv
      by_cases hk : k = n
      · simp [alist.set, hk]
      · simp [alist.set, hk, ih]

theorem entryTimeout_identity (st : ConnState) (name : String) :
    (entryTimeout st name).identity = st.identity := by
  unfold entryTimeout
  split
  · rfl
  · split <;> rfl

theorem alist.lookup_set {α : Type} (l : List (String × α)) (n m : String) (r : α) :
    alist.lookup (alist.set l n r) m = if n = m then some r else alist.lookup l m := by
  induction l with
  | nil =>
      by_cases h : n = m <;> simp [alist.set, alist.lookup, h]
  | cons kv rest ih =>
      obtain ⟨k, v⟩ := kv
      by_cases hk : k = n
      · subst hk
        by_cases h : k = m <;> simp [alist.set, alist.lookup, h]
      · by_cases h : k = m
        · subst h
          have hn : ¬ n = k := fun hh => hk hh.symm
          simp [alist.set, alist.lookup, hk, hn]
        · simp [alist.set, alist.lookup, hk, h, ih]

/-- C10: while the connector's online status is `"offline"`, every inbound
signaling message is dropped on arrival — `onSignalingMessage` returns
before dispatching, so the connector state (identity, rooms and their
entry states, pending queues, pending matchers) is unchanged and no
handler effect is produced. -/
theorem offline_drops_signaling (sign : String → ProvingData) (st : ConnState) (msg : InMsg)
    (h : st.onlineStatus = .offline) :
    onSignalingMessage sign st msg = (st, []) := by
  simp [onSignalingMessage, h]

theorem offline_drops_signaling_witness :
    (ConnState.mk .offline (some "id") (some "id") ["q"] none
        [("r", ⟨false, .entering, ["p"], []⟩)] []).onlineStatus = OnlineStatus.offline
    ∧ onSignalingMessage (fun d => ⟨"s", d, "pk"⟩)
        (ConnState.mk .offline (some "id") (some "id") ["q"] none
          [("r", ⟨false, .entering, ["p"], []⟩)] [])
        (.welcome "r" ["p"])
      = (ConnState.mk .offline (some "id") (some "id") ["q"] none
          [("r", ⟨false, .entering, ["p"], []⟩)] [], []) :=
  ⟨rfl,
    offline_drops_signaling (fun d => ⟨"s", d, "pk"⟩)
      (ConnState.mk .offline (some "id") (some "id") ["q"] none
        [("r", ⟨false, .entering, ["p"], []⟩)] [])
      (.welcome "r" ["p"]) rfl⟩

theorem enter_notEntered_effects (st : ConnState) (name : String) (roomArg r : RoomState)
    (ident : String) (hid : st.identity = some ident)
    (hr : alist.lookup st.rooms name = some r) (hent : r.entered = .notEntered) :
    (enter st name roomArg false).2
      = [.armEntryTimer name enterTimeoutMs, .send (.room name)] := by
  simp [enter, hr, hent, enterBody, hid, requestEnterRoom, alist.lookup_set]

/-- C4: with the identity approved and a registered room in state
`"entering"` (a first `enter` already sent its join request), a second
`enter` produces no effect at all — in particular no second `ROOM` join
request and no new timer; when the 4-second timer then fires with no
`WELCOME` received, the entry state reverts to `"not"`; a subsequent
`enter` from that state sends a fresh `ROOM` join request (re-arming the
4-second timer). -/
theorem enter_twice_then_timeout_then_retry
    (st : ConnState) (name : String) (r roomArg : RoomState) (ident : String)
    (hid : st.identity = some ident)
    (hr : alist.lookup st.rooms name = some r)
    (hent : r.entered = .entering) :
    (enter st name roomArg false).2 = []
    ∧ alist.lookup (enter st name roomArg false).1.rooms name
        = some { r with approved := true }
    ∧ alist.lookup (entryTimeout (enter st name roomArg false).1 name).rooms name
        = some { r with approved := true, entered := .notEntered }
    ∧ (enter (entryTimeout (enter st name roomArg false).1 name) name roomArg false).2
        = [.armEntryTimer name 4000, .send (.room name)] := by
  have h1 : enter st name roomArg false
      = ({ st with rooms := alist.set st.rooms name { r with approved := true } }, []) := by
    simp [enter, hr, hent, enterBody, hid, requestEnterRoom, alist.lookup_set, alist.set_set]
  have h2 : alist.lookup (enter st name roomArg false).1.rooms name
      = some { r with approved := true } := by
    rw [h1]; simp [alist.lookup_set]
  have h4 : alist.lookup (entryTimeout (enter st name roomArg false).1 name).rooms name
      = some { r with approved := true, entered := .notEntered } := by
    unfold entryTimeout
    rw [h2]
    simp [hent, alist.lookup_set]
  have hid2 : (entryTimeout (enter st name roomArg false).1 name).identity = some ident := by
    rw [entryTimeout_identity, h1]
    simpa using hid
  refine ⟨by rw [h1], h2, h4, ?_⟩
  exact enter_notEntered_effects _ name roomArg _ ident hid2 h4 rfl

theorem enter_twice_then_timeout_then_retry_witness :
    ((ConnState.mk .online (some "me") (some "me") [] none
        [("r", ⟨true, .entering, ["p"], []⟩)] []).identity = some "me"
      ∧ alist.lookup (ConnState.mk .online (some "me") (some "me") [] none
          [("r", ⟨true, .entering, ["p"], []⟩)] []).rooms "r"
        = some ⟨true, .entering, ["p"], []⟩
      ∧ (RoomState.mk true .entering ["p"] []).entered = EnterState.entering)
    ∧ (enter (ConnState.mk .online (some "me") (some "me") [] none
          [("r", ⟨true, .entering, ["p"], []⟩)] []) "r" (RoomState.mk true .entering ["p"] []) false).2 = []
    ∧ (enter (entryTimeout (enter (ConnState.mk .online (some "me") (some "me") [] none
          [("r", ⟨true, .entering, ["p"], []⟩)] []) "r" (RoomState.mk true .entering ["p"] []) false).1 "r")
        "r" (RoomState.mk true .entering ["p"] []) false).2
      = [.armEntryTimer "r" 4000, .send (.room "r")] := by
  have h := enter_twice_then_timeout_then_retry
    (ConnState.mk .online (some "me") (some "me") [] none
      [("r", ⟨true, .entering, ["p"], []⟩)] [])
    "r" ⟨true, .entering, ["p"], []⟩ ⟨true, .entering, ["p"], []⟩ "me" rfl (by decide) rfl
  exact ⟨⟨rfl, by decide, rfl⟩, h.1, h.2.2.2⟩

/-- Every room queued in `pendingRooms` that is registered and still
`"not"` entered gets exactly its timer-arm and `ROOM` join request, in
queue order, when the queue is flushed; the flush touches only the rooms
map. -/
theorem flushRooms_spec (queue : List String) :
    ∀ st : ConnState, queue.Nodup →
    (∀ n ∈ queue, ∃ r, alist.lookup st.rooms n = some r ∧ r.entered = .notEntered) →
    (flushRooms st queue).2
        = queue.flatMap (fun n => [Effect.armEntryTimer n enterTimeoutMs, .send (.room n)])
    ∧ (flushRooms st queue).1.identity = st.identity
    ∧ (flushRooms st queue).1.pendingRooms = st.pendingRooms
    ∧ (flushRooms st queue).1.pendingOnlineStatus = st.pendingOnlineStatus
    ∧ (flushRooms st queue).1.onlineStatus = st.onlineStatus := by
  induction queue with
  | nil => intro st _ _; simp [flushRooms]
  | cons n rest ih =>
      intro st hnodup hrooms
      obtain ⟨r, hlk, hent⟩ := hrooms n (by simp)
      have hstep : requestEnterRoom st n
          = ({ st with rooms := alist.set st.rooms n { r with approved := true, entered := .entering } },
              [Effect.armEntryTimer n enterTimeoutMs, .send (.room n)]) := by
        simp [requestEnterRoom, hlk, hent]
      have hrest : ∀ m ∈ rest,
          ∃ r2, alist.lookup (alist.set st.rooms n { r with approved := true, entered := .entering }) m
              = some r2 ∧ r2.entered = .notEntered := by
        intro m hm
        obtain ⟨r2, h2, he2⟩ := hrooms m (by simp [hm])
        have hne : ¬ n = m := by
          rintro rfl; exact (List.nodup_cons.mp hnodup).1 hm
        exact ⟨r2, by rw [alist.lookup_set]; simp [hne, h2], he2⟩
      have hih := ih { st with rooms := alist.set st.rooms n { r with approved := true, entered := .entering } }
        (List.nodup_cons.mp hnodup).2 hrest
      simp only [flushRooms, hstep]
      exact ⟨by simp [hih.1], hih.2.1, hih.2.2.1, hih.2.2.2.1, hih.2.2.2.2⟩

/-- C7: on `APPROVED_IDENTITY` the identity becomes attached
(`identity := pendingIdentity`); every room-entry action queued while
unapproved runs in queue (FIFO) order — each queued room, registered and
still un-entered, gets its timer and `ROOM` join request in exactly that
order — after which the queue is empty; a pending online-status action,
if any, runs last and is cleared. -/
theorem approved_identity_attaches_and_flushes (sign : String → ProvingData) (st : ConnState)
    (hon : st.onlineStatus = .online)
    (hnodup : st.pendingRooms.Nodup)
    (hrooms : ∀ n ∈ st.pendingRooms,
      ∃ r, alist.lookup st.rooms n = some r ∧ r.entered = .notEntered) :
    (onSignalingMessage sign st .approvedIdentity).1.identity = st.pendingIdentity
    ∧ (onSignalingMessage sign st .approvedIdentity).1.pendingRooms = []
    ∧ (onSignalingMessage sign st .approvedIdentity).1.pendingOnlineStatus = none
    ∧ (onSignalingMessage sign st .approvedIdentity).2
        = st.pendingRooms.flatMap (fun n => [Effect.armEntryTimer n enterTimeoutMs, .send (.room n)])
          ++ (match st.pendingOnlineStatus with
              | some s => [Effect.send (.setStatus s)]
              | none => []) := by
  have hflush := flushRooms_spec st.pendingRooms { st with identity := st.pendingIdentity }
    hnodup hrooms
  have hstep : onSignalingMessage sign st .approvedIdentity
      = (match (flushRooms { st with identity := st.pendingIdentity } st.pendingRooms).1.pendingOnlineStatus with
          | some s =>
            ({ (flushRooms { st with identity := st.pendingIdentity } st.pendingRooms).1 with
                pendingRooms := [], pendingOnlineStatus := none },
              (flushRooms { st with identity := st.pendingIdentity } st.pendingRooms).2
                ++ [Effect.send (.setStatus s)])
          | none =>
            ({ (flushRooms { st with identity := st.pendingIdentity } st.pendingRooms).1 with
                pendingRooms := [] },
              (flushRooms { st with identity := st.pendingIdentity } st.pendingRooms).2)) := by
    simp only [onSignalingMessage, hon]
    rfl
  rw [hstep]
  rw [hflush.2.2.2.1]
  cases hpo : st.pendingOnlineStatus with
  | none =>
      rw [hpo] at hflush
      refine ⟨?_, rfl, ?_, ?_⟩
      · simpa using hflush.2.1
      · simpa using hflush.2.2.2.1
      · simpa using hflush.1
  | some s =>
      rw [hpo] at hflush
      refine ⟨?_, rfl, rfl, ?_⟩
      · simpa using hflush.2.1
      · simp [hflush.1]

theorem runDispatches_keeps_never (sign : String → ProvingData) (i : Nat)
    (msgs : List OtherMsg) :
    ∀ st : ConnState,
    (∀ f ∈ st.awaitings, f.id = i → ∀ x, f.accepts x = none) →
    i ∈ matcherIds st.awaitings →
    i ∈ matcherIds (runDispatches sign st msgs).awaitings := by
  induction msgs with
  | nil => intro st _ h; exact h
  | cons x rest ih =>
      intro st hnever h
      have hstep : runDispatches sign st (x :: rest)
          = runDispatches sign ((onSignalingMessage sign st (.otherIn x)).1) rest := rfl
      rw [hstep]
      by_cases hoff : st.onlineStatus = .offline
      · have hdrop : (onSignalingMessage sign st (.otherIn x)).1 = st := by
          simp [onSignalingMessage, hoff]
        rw [hdrop]
        exact ih st hnever h
      · have hfire : (onSignalingMessage sign st (.otherIn x)).1
            = { st with awaitings := (dispatch x st.awaitings).1 } := by
          simp [onSignalingMessage, hoff]
        rw [hfire]
        refine ih _ ?_ ?_
        · intro f hf hfid
          exact hnever f (((dispatchAux_sublist x st.awaitings.length 0 st.awaitings).mem) hf) hfid
        · exact never_acceptor_stays x i st.awaitings.length 0 st.awaitings
            (fun f hf hfid => hnever f hf hfid x) h

/-- C5 (amended): a `request()` whose matcher never accepts is wrapped in
`promiseTimeout(3000, ...)`, whose timer rejects the promise after
exactly 3000 ms; the matcher, however, is NOT removed from
`signalingMessageAwaitings` on timeout — whatever non-matching signaling
traffic arrives in between, it is still registered after the rejection,
so each timed-out request leaves one more matcher in the list. -/
theorem request_timeout_rejects_but_keeps_matcher (sign : String → ProvingData)
    (st : ConnState) (m : Matcher) (out : SigMsg) (msgs : List OtherMsg)
    (hnever : ∀ f ∈ st.awaitings ++ [m], f.id = m.id → ∀ x, f.accepts x = none) :
    (request st m out).2.2 = 3000
    ∧ (requestTimeoutFire (runDispatches sign (request st m out).1 msgs)).2
        = .rejectedTimeout
    ∧ m.id ∈ matcherIds
        (requestTimeoutFire (runDispatches sign (request st m out).1 msgs)).1.awaitings := by
  refine ⟨rfl, rfl, ?_⟩
  show m.id ∈ matcherIds (runDispatches sign (request st m out).1 msgs).awaitings
  refine runDispatches_keeps_never sign m.id msgs _ ?_ ?_
  · intro f hf hfid
    exact hnever f hf hfid
  · show m.id ∈ matcherIds (st.awaitings ++ [m])
    simp

theorem request_timeout_rejects_but_keeps_matcher_witness :
    (∀ f ∈ ((ConnState.mk .online (some "me") (some "me") [] none [] []).awaitings
        ++ [Matcher.mk 0 (fun _ => none)]),
      f.id = (Matcher.mk 0 (fun _ => none)).id → ∀ x, f.accepts x = none)
    ∧ (request (ConnState.mk .online (some "me") (some "me") [] none [] [])
        (Matcher.mk 0 (fun _ => none)) (.setStatus .online)).2.2 = 3000
    ∧ (0 : Nat) ∈ matcherIds
        (requestTimeoutFire (runDispatches (fun d => ⟨"s", d, "pk"⟩)
          (request (ConnState.mk .online (some "me") (some "me") [] none [] [])
            (Matcher.mk 0 (fun _ => none)) (.setStatus .online)).1
          [{ type := "ONLINE_STATUS", peerId := "p", status := "online" }])).1.awaitings := by
  have hnever : ∀ f ∈ ((ConnState.mk .online (some "me") (some "me") [] none [] []).awaitings
      ++ [Matcher.mk 0 (fun _ => none)]),
      f.id = (Matcher.mk 0 (fun _ => none)).id → ∀ x, f.accepts x = none := by
    intro f hf _ x
    simp only [List.nil_append, List.mem_singleton] at hf
    rw [hf]
  have h := request_timeout_rejects_but_keeps_matcher (fun d => ⟨"s", d, "pk"⟩)
    (ConnState.mk .online (some "me") (some "me") [] none [] [])
    (Matcher.mk 0 (fun _ => none)) (.setStatus .online)
    [{ type := "ONLINE_STATUS", peerId := "p", status := "online" }] hnever
  exact ⟨hnever, h.1, h.2.2⟩

/-- C5 counterexample: at a concrete state, after `request` registers a
never-accepting matcher and the 3000 ms `promiseTimeout` fires (rejecting
the promise), the matcher is still in `signalingMessageAwaitings` — the
claim that the matcher is removed on timeout is false, so repeated
timed-out requests do grow the list. -/
theorem request_timeout_matcher_not_removed_cex :
    requestTimeoutMs = 3000
    ∧ (requestTimeoutFire (request (ConnState.mk .online (some "me") (some "me") [] none [] [])
        (Matcher.mk 0 (fun _ => none)) (.setStatus .online)).1).2 = .rejectedTimeout
    ∧ matcherIds (requestTimeoutFire
        (request (ConnState.mk .online (some "me") (some "me") [] none [] [])
          (Matcher.mk 0 (fun _ => none)) (.setStatus .online)).1).1.awaitings = [0]
    ∧ ([0] : List Nat) ≠ [] :=
  ⟨rfl, rfl, rfl, by decide⟩

theorem dispatchAux_first_acc (m : OtherMsg) (v : String) (f : Matcher) (k : Nat) :
    ∀ (fuel : Nat), ∀ (k0 : Nat), ∀ (l : List Matcher),
    l[k]? = some f → f.accepts m = some v →
    (∀ j, k0 ≤ j → j < k → ∀ g, l[j]? = some g → g.accepts m = none) →
    k0 ≤ k → k < k0 + fuel →
    (dispatchAux m fuel k0 l).2.head? = some (f.id, v)
    ∧ ((matcherIds l).Nodup → ¬ f.id ∈ matcherIds (dispatchAux m fuel k0 l).1) := by
  intro fuel
  induction fuel with
  | zero => intro k0 l _ _ _ hk0 hlt; omega
  | succ fuel ih =>
      intro k0 l hk hacc hbefore hk0 hlt
      by_cases heq : k0 = k
      · subst heq
        simp only [dispatchAux, hk, hacc]
        refine ⟨rfl, ?_⟩
        intro hnodup hmem
        have h1 : f.id ∉ matcherIds (eraseFirstById l f.id) :=
          nodup_not_mem_eraseFirstById l f.id hnodup
        have hsub := (dispatchAux_sublist m fuel (k0 + 1) (eraseFirstById l f.id)).map Matcher.id
        exact h1 (hsub.mem hmem)
      · have hk0k : k0 < k := lt_of_le_of_ne hk0 heq
        have hklen : k < l.length := (List.getElem?_eq_some.mp hk).1
        have hk0len : k0 < l.length := lt_trans hk0k hklen
        have hg : l[k0]? = some (l.get ⟨k0, hk0len⟩) :=
          List.getElem?_eq_some.mpr ⟨hk0len, rfl⟩
        have hgnone : (l.get ⟨k0, hk0len⟩).accepts m = none :=
          hbefore k0 le_rfl hk0k _ hg
        simp only [dispatchAux, hg, hgnone]
        exact ih (k0 + 1) l hk hacc
          (fun j hj1 hj2 g hgj => hbefore j (by omega) hj2 g hgj)
          (by omega) (by omega)

/-- C6 (amended): a message matching no protocol handler is offered to
the pending matchers in registration order, and the first matcher whose
predicate accepts it is resolved first and removed from the list.  (The
original claim's "exactly the first, no later matcher resolves" is
refuted by `dispatch_resolves_beyond_first`: because the removal splices
the array being iterated, the matcher right after a removed one is
skipped, but matchers after that are still tried and may also resolve on
the same message.) -/
theorem dispatch_first_accepting (m : OtherMsg) (l : List Matcher) (k : Nat)
    (f : Matcher) (v : String)
    (hk : l[k]? = some f) (hacc : f.accepts m = some v)
    (hbefore : ∀ j, j < k → ∀ g, l[j]? = some g → g.accepts m = none)
    (hnodup : (matcherIds l).Nodup) :
    (dispatch m l).2.head? = some (f.id, v)
    ∧ ¬ f.id ∈ matcherIds (dispatch m l).1 := by
  have hklen : k < l.length := (List.getElem?_eq_some.mp hk).1
  have h := dispatchAux_first_acc m v f k l.length 0 l hk hacc
    (fun j _ hj g hg => hbefore j hj g hg) (Nat.zero_le k) (by omega)
  exact ⟨h.1, h.2 hnodup⟩

theorem dispatch_first_accepting_witness :
    (wMatchers[1]? = some wMatcher2
      ∧ wMatcher2.accepts {} = some "ok"
      ∧ (∀ j, j < 1 → ∀ g, wMatchers[j]? = some g → g.accepts {} = none)
      ∧ (matcherIds wMatchers).Nodup)
    ∧ (dispatch {} wMatchers).2.head? = some (7, "ok")
    ∧ ¬ (7 : Nat) ∈ matcherIds (dispatch {} wMatchers).1 := by
  have hb : ∀ j, j < 1 → ∀ g, wMatchers[j]? = some g → g.accepts {} = none := by
    intro j hj g hg
    obtain rfl : j = 0 := by omega
    have h0 : wMatchers[0]? = some wMatcher1 := rfl
    rw [h0] at hg
    rw [(Option.some.inj hg).symm]
    rfl
  have h := dispatch_first_accepting {} wMatchers 1 wMatcher2 "ok" rfl rfl hb (by decide)
  exact ⟨⟨rfl, rfl, hb, by decide⟩, h.1, h.2⟩

/-- C6 counterexample: on a concrete list of three pending matchers, all
accepting, dispatching one unmatched message resolves matcher 0 AND
matcher 2 (ECMAScript `forEach` skips index 1 after the splice at index
0 but still visits the shifted matcher 2), and removes both — refuting
"exactly the first matcher whose predicate accepts the message is
removed (no later matcher resolves on that message)", which would give
resolutions `[0]` and survivors `[1, 2]`. -/
theorem dispatch_resolves_beyond_first :
    (dispatch {} cexMatchers).2.map Prod.fst = [0, 2]
    ∧ matcherIds (dispatch {} cexMatchers).1 = [1]
    ∧ (onSignalingMessage (fun d => ⟨"s", d, "pk"⟩)
        (ConnState.mk .online (some "me") (some "me") [] none [] cexMatchers)
        (.otherIn {})).2
      = [.resolveRequest 0 "a", .resolveRequest 2 "c"]
    ∧ matcherIds (onSignalingMessage (fun d => ⟨"s", d, "pk"⟩)
        (ConnState.mk .online (some "me") (some "me") [] none [] cexMatchers)
        (.otherIn {})).1.awaitings = [1]
    ∧ ([0, 2] : List Nat) ≠ [0]
    ∧ ([1] : List Nat) ≠ [1, 2] :=
  ⟨rfl, rfl, rfl, rfl, by decide, by decide⟩

theorem approved_identity_attaches_and_flushes_witness :
    ((ConnState.mk .online none (some "me") ["a", "b"] (some .online)
        [("a", ⟨false, .notEntered, ["p"], []⟩), ("b", ⟨false, .notEntered, ["q"], []⟩)]
        []).onlineStatus = OnlineStatus.online
      ∧ (["a", "b"] : List String).Nodup)
    ∧ (onSignalingMessage (fun d => ⟨"s", d, "pk"⟩)
        (ConnState.mk .online none (some "me") ["a", "b"] (some .online)
          [("a", ⟨false, .notEntered, ["p"], []⟩), ("b", ⟨false, .notEntered, ["q"], []⟩)] [])
        .approvedIdentity).1.identity = some "me"
    ∧ (onSignalingMessage (fun d => ⟨"s", d, "pk"⟩)
        (ConnState.mk .online none (some "me") ["a", "b"] (some .online)
          [("a", ⟨false, .notEntered, ["p"], []⟩), ("b", ⟨false, .notEntered, ["q"], []⟩)] [])
        .approvedIdentity).2
      = [Effect.armEntryTimer "a" 4000, .send (.room "a"),
          .armEntryTimer "b" 4000, .send (.room "b"), .send (.setStatus .online)] := by
  have h := approved_identity_attaches_and_flushes (fun d => ⟨"s", d, "pk"⟩)
    (ConnState.mk .online none (some "me") ["a", "b"] (some .online)
      [("a", ⟨false, .notEntered, ["p"], []⟩), ("b", ⟨false, .notEntered, ["q"], []⟩)] [])
    rfl (by decide)
    (by
      intro n hn
      simp only [List.mem_cons, List.not_mem_nil, or_false] at hn
      rcases hn with rfl | rfl
      · exact ⟨⟨false, .notEntered, ["p"], []⟩, by decide, rfl⟩
      · exact ⟨⟨false, .notEntered, ["q"], []⟩, by decide, rfl⟩)
  refine ⟨⟨rfl, by decide⟩, h.1, ?_⟩
  have := h.2.2.2
  simpa [enterTimeoutMs] using this

theorem peerStep_inv (p : PeerRec) (e : PeerEvent) (h : peerInv p) :
    peerInv (peerStep p e) := by
  obtain ⟨pc, pr, pn, pt, pcnt⟩ := p
  obtain ⟨h1, h2⟩ := h
  cases e with
  | candidateArrived => cases pn <;> exact ⟨h1, h2⟩
  | reconnectTimerFires =>
      by_cases ht : pt = 0
      · subst ht
        exact ⟨h1, h2⟩
      · by_cases hc : pc = false ∧ pr = some ConnectionRole.answerRole
        · obtain ⟨hc1, hc2⟩ := hc
          subst hc1
          subst hc2
          have h1n : pcnt ≤ 1 := h1
          have hz : pcnt = 0 := by
            by_contra hnz
            have hone : pcnt = 1 := by omega
            rcases h2 hone with hr | hr <;> simp at hr
          subst hz
          simp only [peerStep, if_neg ht]
          exact ⟨Nat.le_refl 1, fun _ => Or.inl rfl⟩
        · simp only [peerStep, if_neg ht]
          rw [if_neg hc]
          exact ⟨h1, h2⟩
  | offerInitiated => exact ⟨h1, fun _ => Or.inl rfl⟩
  | answerInitiated =>
      refine ⟨h1, fun hcnt => ?_⟩
      rcases h2 hcnt with hr | hr
      · subst hr
        exact Or.inr rfl
      · subst hr
        exact Or.inr rfl
  | channelConnected => exact ⟨h1, h2⟩
  | channelClosed => exact ⟨h1, h2⟩

theorem foldl_peerInv (evs : List PeerEvent) :
    ∀ p : PeerRec, peerInv p → peerInv (evs.foldl peerStep p) := by
  induction evs with
  | nil => intro p h; exact h
  | cons e rest ih => intro p h; exact ih (peerStep p e) (peerStep_inv p e h)

/-- The timer callback as a single state equation: it re-offers exactly
when a timer is pending and the peer is still an unconnected answerer. -/
theorem peerStep_timer_eq (p : PeerRec) :
    peerStep p .reconnectTimerFires
      = (if p.pendingTimers ≠ 0 ∧ p.connected = false
            ∧ p.connectionRole = some ConnectionRole.answerRole
         then PeerRec.mk false (some .offerRole) true (p.pendingTimers - 1) (p.reofferCount + 1)
         else { p with pendingTimers := p.pendingTimers - 1 }) := by
  obtain ⟨pc, pr, pn, pt, pcnt⟩ := p
  by_cases ht : pt = 0
  · subst ht
    rw [if_neg (fun hh => hh.1 rfl)]
    rfl
  · by_cases hc : pc = false ∧ pr = some ConnectionRole.answerRole
    · obtain ⟨hc1, hc2⟩ := hc
      subst hc1
      subst hc2
      rw [if_pos ⟨ht, rfl, rfl⟩]
      simp only [peerStep, if_neg ht]
      rfl
    · rw [if_neg (fun hh => hc ⟨hh.2.1, hh.2.2⟩)]
      simp only [peerStep, if_neg ht]
      rw [if_neg hc]

/-- C8: the 2.5-second reconnect heuristic re-initiates as offerer at
most once per peer over any event trace, no matter how many candidate
messages arm timers; a firing timer re-offers exactly when a timer is
pending and the peer is still unconnected with role `'answer'`, in which
case it flips the role to `'offer'`, sets the one-shot `noNeedReconnect`
flag and counts one re-initiation — and once fired, the role is never
`'answer'` again, so no trace reaches a second firing. -/
theorem reconnect_heuristic_at_most_once (evs : List PeerEvent) (p : PeerRec) :
    (runPeer evs).reofferCount ≤ 1
    ∧ (peerStep p .reconnectTimerFires).reofferCount
        = (if p.pendingTimers ≠ 0 ∧ p.connected = false
              ∧ p.connectionRole = some ConnectionRole.answerRole
           then p.reofferCount + 1 else p.reofferCount)
    ∧ (peerStep p .reconnectTimerFires).connectionRole
        = (if p.pendingTimers ≠ 0 ∧ p.connected = false
              ∧ p.connectionRole = some ConnectionRole.answerRole
           then some .offerRole else p.connectionRole)
    ∧ (peerStep p .reconnectTimerFires).noNeedReconnect
        = (if p.pendingTimers ≠ 0 ∧ p.connected = false
              ∧ p.connectionRole = some ConnectionRole.answerRole
           then true else p.noNeedReconnect) := by
  refine ⟨(foldl_peerInv evs initPeer ⟨Nat.zero_le 1, fun hh => absurd hh (by decide)⟩).1,
    ?_, ?_, ?_⟩
  · rw [peerStep_timer_eq]
    split <;> rfl
  · rw [peerStep_timer_eq]
    split <;> rfl
  · rw [peerStep_timer_eq]
    split <;> rfl

/-- C9: when the messenger's online status is `"offline"`,
`enterRoom(peerId)` returns `null` immediately: no room is created (the
state is unchanged) and no join request or any other effect is
produced. -/
theorem enterRoom_offline_returns_null (getAccountId : String → String)
    (st : MsgrState) (peerId : String)
    (h : st.conn.onlineStatus = .offline) :
    enterRoom getAccountId st peerId = (none, st, []) := by
  simp [enterRoom, h]

theorem enterRoom_offline_returns_null_witness :
    (MsgrState.mk "me" (ConnState.mk .offline none (some "me") [] none [] [])).conn.onlineStatus
      = OnlineStatus.offline
    ∧ enterRoom (fun s => s)
        (MsgrState.mk "me" (ConnState.mk .offline none (some "me") [] none [] [])) "peer"
      = (none, MsgrState.mk "me" (ConnState.mk .offline none (some "me") [] none [] []), []) :=
  ⟨rfl,
    enterRoom_offline_returns_null (fun s => s)
      (MsgrState.mk "me" (ConnState.mk .offline none (some "me") [] none [] [])) "peer" rfl⟩

end P2P
